import Mathlib

/-!
Verification development for the Annotation-Converter repository.

We give a shallow embedding of the core of the pipeline:
  * the pandas cell / dataframe fragment the converter manipulates
    (`Cell`, `Frame` and the column operations used by the source),
  * the VOC importer `AnnotationConverter.voc_to_dataframe` (category
    deduplication, id counters, bbox conversion),
  * the COCO importer `AnnotationConverter.coco_to_dataframe`,
  * the canonical-schema assembler `AnnotationConverter._prepare_dataframe`,
  * the COCO exporter `AnnotationConverter.dataframe_to_bina_coco`,
  * the YOLO sniffer `AnnotationExplorer._is_yolo`,
  * the move logic of `AnnotationExplorer._move_file` /
    `organize_files_and_identify_format` (with the Python `shutil.move`
    semantics it relies on).

Machine integers do not overflow in the modelled paths (Python ints are
unbounded), so `Nat`/`Int` are used directly.
-/

set_option maxHeartbeats 1000000

namespace AnnConv

/-- A pandas cell as used by the converter: missing value (`NaN`), an integer,
a string, or a list of integers (bounding boxes / segmentations). -/
inductive Cell where
  | nan
  | int (n : Int)
  | str (s : String)
  | intList (xs : List Int)
deriving DecidableEq, Repr

def Cell.isInt : Cell → Bool
  | .int _ => true
  | _ => false

def Cell.isStr : Cell → Bool
  | .str _ => true
  | _ => false

def Cell.isIntOrNan : Cell → Bool
  | .int _ => true
  | .nan => true
  | _ => false

def Cell.isStrOrNan : Cell → Bool
  | .str _ => true
  | .nan => true
  | _ => false

/-- Value of a pure digit string (`Option` because the empty string or a
non-digit character is not a number). -/
def digitsVal? (cs : List Char) : Option Nat :=
  if cs ≠ [] ∧ cs.all Char.isDigit then
    some (cs.foldl (fun acc c => 10 * acc + (c.toNat - 48)) 0)
  else none

/-- Python `str.strip()` on a character list. -/
def pyStripList (cs : List Char) : List Char :=
  ((cs.dropWhile Char.isWhitespace).reverse.dropWhile Char.isWhitespace).reverse

/-- Python `str.strip()`. -/
def pyStrip (s : String) : String := String.mk (pyStripList s.toList)

/-- Python `int(s)` on a string: leading/trailing whitespace is stripped, an
optional sign is allowed, the rest must be decimal digits. -/
def pyParseInt (s : String) : Option Int :=
  match pyStripList s.toList with
  | '+' :: ds => (digitsVal? ds).map (fun n => (n : Int))
  | '-' :: ds => (digitsVal? ds).map (fun n => -(n : Int))
  | ds => (digitsVal? ds).map (fun n => (n : Int))

/-- Python `int(x)` on a cell: integers pass through, numeric strings are
parsed, `NaN` and lists raise (modelled as `none`). -/
def pyInt? : Cell → Option Int
  | .int n => some n
  | .str s => pyParseInt s
  | .nan => none
  | .intList _ => none

/-- Digits with an optional single fractional part (`"12"`, `"12.5"`, `".5"`,
`"12."`); the value is truncated toward zero, as `astype(int)` does after
`pd.to_numeric`. -/
def numericCore? (cs : List Char) : Option Nat :=
  let intPart := cs.takeWhile Char.isDigit
  let rest := cs.dropWhile Char.isDigit
  match rest with
  | [] => digitsVal? intPart
  | '.' :: frac =>
    if (intPart ≠ [] ∨ frac ≠ []) ∧ frac.all Char.isDigit then
      some (intPart.foldl (fun acc c => 10 * acc + (c.toNat - 48)) 0)
    else none
  | _ => none

/-- The composite `pd.to_numeric(s)` followed by truncation to int, on a
string: optional sign, decimal digits with an optional fractional part. -/
def pyNumericTruncInt (s : String) : Option Int :=
  match pyStripList s.toList with
  | '+' :: ds => (numericCore? ds).map (fun n => (n : Int))
  | '-' :: ds => (numericCore? ds).map (fun n => -(n : Int))
  | ds => (numericCore? ds).map (fun n => (n : Int))

/-- Python `str([1, 2])` rendering of an int list. -/
def pyStrOfIntList (xs : List Int) : String :=
  "[" ++ String.intercalate ", " (xs.map toString) ++ "]"

/-- Python `str(x)` of a cell, as pandas `astype(str)` applies it elementwise
(note that `astype(str)` renders a missing value as the string `"nan"`). -/
def pyStrOfCell : Cell → String
  | .nan => "nan"
  | .int n => toString n
  | .str s => s
  | .intList xs => pyStrOfIntList xs

/-- A pandas DataFrame fragment: ordered named columns of cells. -/
structure Frame where
  cols : List (String × List Cell)
deriving DecidableEq, Repr

def Frame.names (f : Frame) : List String := f.cols.map Prod.fst

/-- First column with the given name (pandas label lookup). -/
def colFind : List (String × List Cell) → String → Option (List Cell)
  | [], _ => none
  | (n, cs) :: rest, c => if n = c then some cs else colFind rest c

def Frame.col? (f : Frame) (c : String) : Option (List Cell) := colFind f.cols c

/-- Cell at column `c`, row `i`; missing positions read as `NaN`. -/
def Frame.cell (f : Frame) (c : String) (i : Nat) : Cell :=
  match f.col? c with
  | some cs => cs.getD i Cell.nan
  | none => Cell.nan

def Frame.nrows (f : Frame) : Nat := f.cols.foldr (fun p acc => max p.2.length acc) 0

/-- Replace the cells of an existing column (pandas `df[c] = series`). -/
def Frame.setCol (f : Frame) (c : String) (cs : List Cell) : Frame :=
  ⟨f.cols.map (fun p => if p.1 = c then (p.1, cs) else p)⟩

/-- Map a function over the cells of one column. -/
def Frame.mapCol (f : Frame) (c : String) (g : Cell → Cell) : Frame :=
  ⟨f.cols.map (fun p => if p.1 = c then (p.1, p.2.map g) else p)⟩

def fillCell (v : Cell) : Cell → Cell
  | .nan => v
  | c => c

/-- Pandas `df.fillna(v)`: replace every missing cell by `v`. -/
def Frame.fillna (f : Frame) (v : Cell) : Frame :=
  ⟨f.cols.map (fun p => (p.1, p.2.map (fillCell v)))⟩

/-- Pad a column to `n` rows with `NaN`, as `pd.concat(axis=1)` aligns
columns of different length. -/
def padTo (n : Nat) (cs : List Cell) : List Cell :=
  cs ++ List.replicate (n - cs.length) Cell.nan

/-- The source's `pd.concat([images_df, annotations_df, categories_df], axis=1)`:
columns side by side, shorter frames padded with `NaN`. -/
def concat3 (a b c : Frame) : Frame :=
  let n := max a.nrows (max b.nrows c.nrows)
  ⟨(a.cols ++ b.cols ++ c.cols).map (fun p => (p.1, padTo n p.2))⟩

/-- Pandas `df.reindex(columns=ns, fill_value=fill)`: exactly the columns
`ns` in order; existing columns keep their cells, absent ones are created
filled with `fill`. -/
def Frame.reindex (f : Frame) (ns : List String) (fill : Cell) : Frame :=
  ⟨ns.map (fun nm =>
    (nm,
      match f.col? nm with
      | some cs => cs
      | none => List.replicate f.nrows fill))⟩

/-- Frame built from a list of records (`pd.DataFrame(list_of_dicts)`):
an empty record list yields a frame with no columns at all. -/
def framed {α : Type} (cols : List (String × (α → Cell))) (rows : List α) : Frame :=
  if rows.isEmpty then ⟨[]⟩ else ⟨cols.map (fun p => (p.1, rows.map p.2))⟩

/-- The fixed canonical schema of `AnnotationConverter.__init__`. -/
def schema : List String :=
  ["info", "img_id", "img_width", "img_height", "img_image_name", "img_file_name",
   "licenses", "cat_id", "cat_name", "cat_supercategory", "errors", "ann_id",
   "ann_segmentation", "ann_image_id", "ann_category_id", "ann_area", "ann_bbox",
   "ann_iscrowd", "labels", "classifications", "augmentation_settings",
   "tile_settings", "False_positive"]

/-! ## VOC importer (`AnnotationConverter.voc_to_dataframe`) -/

/-- One `object` element of a VOC XML file: its `name` text and the four
required integer `bndbox` children. -/
structure VocObj where
  name : String
  xmin : Int
  ymin : Int
  xmax : Int
  ymax : Int
deriving DecidableEq, Repr

/-- One parsed VOC XML file: `size/width`, `size/height`, `filename`, the
optional `path` element, and the `object` elements in document order. -/
structure VocXml where
  width : Int
  height : Int
  filename : String
  path : Option String
  objects : List VocObj
deriving DecidableEq, Repr

/-- Record appended to `img_data` by `_parse_voc_image`. -/
structure VocImgRec where
  img_id : Nat
  img_width : Int
  img_height : Int
  img_image_name : String
  img_file_name : String
deriving DecidableEq, Repr

/-- Record appended to `ann_data` by `_parse_voc_annotation`. -/
structure VocAnnRec where
  ann_id : Nat
  ann_segmentation : List Int
  ann_bbox : List Int
  ann_area : Int
  ann_image_id : Nat
  ann_category_id : Nat
  ann_category_name : String
  ann_iscrowd : Nat
deriving DecidableEq, Repr

/-- The loop state of `voc_to_dataframe`: the `categories` dict (a Python
dict keeps insertion order, modelled as an association list), the three
accumulated record lists, and the `img_id` / `cat_id` / `annotation_id`
counters. -/
structure VocState where
  catMap : List (String × Nat)
  imgRows : List VocImgRec
  annRows : List VocAnnRec
  catRows : List (Nat × String)
  nextImg : Nat
  nextCat : Nat
  nextAnn : Nat
deriving DecidableEq, Repr

/-- Lookup in the `categories` dict. -/
def alookup : List (String × Nat) → String → Option Nat
  | [], _ => none
  | (k, v) :: rest, key => if k = key then some v else alookup rest key

/-- `AnnotationConverter._parse_voc_annotation`: bbox `[xmin, ymin,
xmax - xmin, ymax - ymin]`, area `(xmax - xmin) * (ymax - ymin)`,
`iscrowd` 0, empty segmentation. -/
def mkVocAnn (annId : Nat) (o : VocObj) (imgId : Nat) (cid : Nat) : VocAnnRec :=
  { ann_id := annId
    ann_segmentation := []
    ann_bbox := [o.xmin, o.ymin, o.xmax - o.xmin, o.ymax - o.ymin]
    ann_area := (o.xmax - o.xmin) * (o.ymax - o.ymin)
    ann_image_id := imgId
    ann_category_id := cid
    ann_category_name := o.name
    ann_iscrowd := 0 }

/-- The `if cat_name not in categories` block of the object loop. -/
def insertCat (s : VocState) (nm : String) : VocState :=
  match alookup s.catMap nm with
  | some _ => s
  | none =>
    { s with
      catMap := s.catMap ++ [(nm, s.nextCat)]
      catRows := s.catRows ++ [(s.nextCat, nm)]
      nextCat := s.nextCat + 1 }

/-- One iteration of `for obj in root.findall('object')`. -/
def stepObj (s : VocState) (o : VocObj) : VocState :=
  let t := insertCat s o.name
  let cid := (alookup t.catMap o.name).getD 0
  { t with
    annRows := t.annRows ++ [mkVocAnn t.nextAnn o t.nextImg cid]
    nextAnn := t.nextAnn + 1 }

/-- One iteration of `for xml_file in xml_files`: append the image record,
process the objects, increment `img_id`. -/
def stepFile (s : VocState) (f : VocXml) : VocState :=
  let s :=
    { s with
      imgRows := s.imgRows ++
        [{ img_id := s.nextImg, img_width := f.width, img_height := f.height,
           img_image_name := f.filename, img_file_name := f.path.getD "" }] }
  let s := f.objects.foldl stepObj s
  { s with nextImg := s.nextImg + 1 }

def initVocState : VocState := ⟨[], [], [], [], 0, 0, 0⟩

/-- The whole file loop of `voc_to_dataframe`, over the parsed XML files in
directory-listing order. -/
def runVoc (files : List VocXml) : VocState := files.foldl stepFile initVocState

def vocImgFrame (st : VocState) : Frame :=
  framed
    [("img_id", fun r => Cell.int (r.img_id : Int)),
     ("img_width", fun r => Cell.int r.img_width),
     ("img_height", fun r => Cell.int r.img_height),
     ("img_image_name", fun r => Cell.str r.img_image_name),
     ("img_file_name", fun r => Cell.str r.img_file_name)]
    st.imgRows

def vocAnnFrame (st : VocState) : Frame :=
  framed
    [("ann_id", fun r => Cell.int (r.ann_id : Int)),
     ("ann_segmentation", fun r => Cell.intList r.ann_segmentation),
     ("ann_bbox", fun r => Cell.intList r.ann_bbox),
     ("ann_area", fun r => Cell.int r.ann_area),
     ("ann_image_id", fun r => Cell.int (r.ann_image_id : Int)),
     ("ann_category_id", fun r => Cell.int (r.ann_category_id : Int)),
     ("ann_category_name", fun r => Cell.str r.ann_category_name),
     ("ann_iscrowd", fun r => Cell.int (r.ann_iscrowd : Int))]
    st.annRows

def vocCatFrame (st : VocState) : Frame :=
  framed
    [("cat_id", fun r => Cell.int (r.1 : Int)),
     ("cat_name", fun r => Cell.str r.2)]
    st.catRows

/-! ## Canonical schema assembler (`AnnotationConverter._prepare_dataframe`) -/

/-- `astype("int64", errors='ignore')` on an object column: the conversion is
all-or-nothing — if any cell fails to convert the whole column is left
unchanged. -/
def astypeInt64Ignore (cs : List Cell) : List Cell :=
  if cs.all (fun c => (pyInt? c).isSome) then
    cs.map (fun c => Cell.int ((pyInt? c).getD 0))
  else cs

/-- `.replace("", 0)` on a column. -/
def replEmptyZero (cs : List Cell) : List Cell :=
  cs.map (fun c => if c = Cell.str "" then Cell.int 0 else c)

/-- `.fillna(0)` on a column. -/
def fillna0Col (cs : List Cell) : List Cell := cs.map (fillCell (Cell.int 0))

/-- The chain `astype("int64", errors='ignore').replace("", 0).fillna(0)`
applied to `img_width` / `img_height`. -/
def imgDimFix (cs : List Cell) : List Cell :=
  fillna0Col (replEmptyZero (astypeInt64Ignore cs))

/-- One step of the dimension loop: `if col in images_df.columns` then
reassign the column. -/
def fixDimStep (g : Frame) (c : String) : Frame :=
  match g.col? c with
  | some cs => g.setCol c (imgDimFix cs)
  | none => g

/-- The `for col in ["img_width", "img_height"]: if col in images_df.columns`
loop of `_prepare_dataframe`. -/
def fixImgDims (f : Frame) : Frame :=
  ["img_width", "img_height"].foldl fixDimStep f

/-- Elementwise fallible column transform (`pd.to_numeric` raising on the
first bad element). -/
def optMapCells (g : Cell → Option Cell) : List Cell → Option (List Cell)
  | [] => some []
  | c :: rest => do
    let c2 ← g c
    let rest2 ← optMapCells g rest
    pure (c2 :: rest2)

/-- One cell of `pd.to_numeric(col).fillna(0).astype(int)`: `to_numeric`
raises on a non-numeric cell (modelled as `none`), a missing value becomes
0, and `astype(int)` truncates. -/
def toNumericCellInt? : Cell → Option Cell
  | .nan => some (Cell.int 0)
  | .int n => some (Cell.int n)
  | .str s => (pyNumericTruncInt s).map Cell.int
  | .intList _ => none

/-- `pd.to_numeric(col).fillna(0).astype(int)` on the `cat_id` column. -/
def toNumericFillAstypeInt? (cs : List Cell) : Option (List Cell) :=
  optMapCells toNumericCellInt? cs

/-- The frame built by the tail of `_prepare_dataframe` once the `cat_id`
and `ann_category_id` columns have been read: the three transformed frames
concatenated column-wise. -/
def preConcat (imagesDf annsDf catsDf : Frame)
    (annCells catCells2 : List Cell) : Frame :=
  concat3
    ((fixImgDims imagesDf).fillna (Cell.str ""))
    ((annsDf.setCol "ann_category_id"
        (annCells.map (fun c => Cell.str (pyStrOfCell c)))).fillna (Cell.str ""))
    (catsDf.setCol "cat_id" catCells2)

/-- `AnnotationConverter._prepare_dataframe`.  `none` models a raised
exception: a `KeyError` when `cat_id` / `ann_category_id` is missing, a
`to_numeric` failure on `cat_id`, or pandas refusing to `reindex` an axis
with duplicate labels. -/
def prepare_dataframe (imagesDf annsDf catsDf : Frame) : Option Frame :=
  match catsDf.col? "cat_id" with
  | none => none
  | some catCells =>
    match toNumericFillAstypeInt? catCells with
    | none => none
    | some catCells2 =>
      match annsDf.col? "ann_category_id" with
      | none => none
      | some annCells =>
        if (preConcat imagesDf annsDf catsDf annCells catCells2).names.Nodup then
          some ((preConcat imagesDf annsDf catsDf annCells catCells2).reindex schema
            (Cell.str ""))
        else none

/-- `AnnotationConverter.voc_to_dataframe` end to end.  With no XML files the
loop never runs and the undefined `img_df` raises (modelled as `none`). -/
def voc_to_dataframe (files : List VocXml) : Option Frame :=
  if files.isEmpty then none
  else
    let st := runVoc files
    prepare_dataframe (vocImgFrame st) (vocAnnFrame st) (vocCatFrame st)

/-! ## COCO importer (`AnnotationConverter.coco_to_dataframe`) -/

/-- An entry of a COCO file's `images` array. -/
structure CocoImg where
  id : Int
  width : Int
  height : Int
  file_name : String
deriving DecidableEq, Repr

/-- An entry of a COCO file's `categories` array. -/
structure CocoCat where
  id : Int
  name : String
  supercategory : String
deriving DecidableEq, Repr

/-- An entry of a COCO file's `annotations` array. -/
structure CocoAnn where
  id : Int
  image_id : Int
  category_id : Int
  area : Int
  bbox : List Int
  seg : List Int
  iscrowd : Int
deriving DecidableEq, Repr

/-- One COCO JSON document. -/
structure CocoFile where
  images : List CocoImg
  categories : List CocoCat
  anns : List CocoAnn
deriving DecidableEq, Repr

/-- All `images` entries of a run's JSON files, in file-discovery order. -/
def cocoAllImages (files : List CocoFile) : List CocoImg :=
  files.foldr (fun f acc => f.images ++ acc) []

/-- The `pd.concat(..., ignore_index=True)` of the per-file
`pd.json_normalize(...).add_prefix("img_")` frames: ids are taken verbatim
from the input, rows in file-discovery order. -/
def cocoImgFrame (files : List CocoFile) : Frame :=
  framed
    [("img_id", fun r => Cell.int r.id),
     ("img_width", fun r => Cell.int r.width),
     ("img_height", fun r => Cell.int r.height),
     ("img_file_name", fun r => Cell.str r.file_name)]
    (cocoAllImages files)

def cocoCatFrame (files : List CocoFile) : Frame :=
  framed
    [("cat_id", fun r => Cell.int r.id),
     ("cat_name", fun r => Cell.str r.name),
     ("cat_supercategory", fun r => Cell.str r.supercategory)]
    (files.foldr (fun f acc => f.categories ++ acc) [])

def cocoAnnFrame (files : List CocoFile) : Frame :=
  framed
    [("ann_id", fun r => Cell.int r.id),
     ("ann_image_id", fun r => Cell.int r.image_id),
     ("ann_category_id", fun r => Cell.int r.category_id),
     ("ann_area", fun r => Cell.int r.area),
     ("ann_bbox", fun r => Cell.intList r.bbox),
     ("ann_segmentation", fun r => Cell.intList r.seg),
     ("ann_iscrowd", fun r => Cell.int r.iscrowd)]
    (files.foldr (fun f acc => f.anns ++ acc) [])

/-- `AnnotationConverter.coco_to_dataframe`: no renumbering of any id; with
no JSON files, `pd.concat([])` raises (modelled as `none`). -/
def coco_to_dataframe (files : List CocoFile) : Option Frame :=
  if files.isEmpty then none
  else prepare_dataframe (cocoImgFrame files) (cocoAnnFrame files) (cocoCatFrame files)

/-! ## COCO exporter (`AnnotationConverter.dataframe_to_bina_coco`) -/

/-- An emitted image record: `width`, `height` and the two name fields are
copied verbatim (both name fields from the `img_file_name` column), only
`id` passes through `int()`. -/
structure ImgOut where
  id : Int
  width : Cell
  height : Cell
  image_name : Cell
  file_name : Cell
deriving DecidableEq, Repr

/-- An emitted category record. -/
structure CatOut where
  id : Int
  name : Cell
  supercategory : Cell
deriving DecidableEq, Repr

/-- An emitted annotation record: `id`, `image_id`, `category_id` pass
through `int()`; `segmentation`, `area`, `bbox`, `iscrowd` are verbatim. -/
structure AnnOut where
  id : Int
  seg : Cell
  image_id : Int
  category_id : Int
  area : Cell
  bbox : Cell
  iscrowd : Cell
deriving DecidableEq, Repr

/-- The exported document: the three accumulated sequences plus the fixed
empty top-level sections (`info`, `augmentation_settings`, `tile_settings`,
`False_positive` are fixed empty objects and are not modelled as data). -/
structure CocoDoc where
  images : List ImgOut
  categories : List CatOut
  anns : List AnnOut
  licenses : List Cell
  errors : List Cell
  labels : List Cell
  classifications : List Cell
deriving DecidableEq, Repr

/-- The regex replace `df.replace(r"\x5e\s*$", np.nan, regex=True)` on one
cell: a string of only whitespace (including the empty string) becomes
missing; non-string cells are untouched. -/
def replaceWSCell (c : Cell) : Cell :=
  match c with
  | .str s => if s.toList.all Char.isWhitespace then Cell.nan else Cell.str s
  | c => c

/-- Column access `df[c][i]`: a missing column raises `KeyError`. -/
def Frame.cellE (f : Frame) (c : String) (i : Nat) : Except String Cell :=
  match f.col? c with
  | some cs => .ok (cs.getD i Cell.nan)
  | none => .error ("KeyError: " ++ c)

/-- Cell as the exporter's row loop sees it.  The source applies the
whitespace-to-NaN `replace` to the whole frame and the `fillna(0)` to the
`ann_iscrowd` column up front; both are elementwise, so they are applied
here at access time. -/
def exportCell (f : Frame) (c : String) (i : Nat) : Except String Cell := do
  let x ← f.cellE c i
  let x := replaceWSCell x
  if c = "ann_iscrowd" then pure (fillCell (Cell.int 0) x) else pure x

/-- Python `int(x)`: raises (modelled as `.error`) when the cell is missing
or not integer-parseable. -/
def intE (c : Cell) : Except String Int :=
  match pyInt? c with
  | some n => .ok n
  | none => .error "int() coercion failed"

/-- The `if not pd.isna(df["img_id"][i])` block of the row loop: emit an
image record when `img_id` is present. -/
def imgOutOfRow (df : Frame) (i : Nat) : Except String (Option ImgOut) := do
  let imgIdCell ← exportCell df "img_id" i
  if imgIdCell ≠ Cell.nan then do
    let idv ← intE imgIdCell
    let w ← exportCell df "img_width" i
    let h ← exportCell df "img_height" i
    let fn ← exportCell df "img_file_name" i
    pure (some { id := idv, width := w, height := h, image_name := fn, file_name := fn : ImgOut })
  else pure none

/-- The `if not pd.isna(df["cat_id"][i])` block of the row loop. -/
def catOutOfRow (df : Frame) (i : Nat) : Except String (Option CatOut) := do
  let catIdCell ← exportCell df "cat_id" i
  if catIdCell ≠ Cell.nan then do
    let idv ← intE catIdCell
    let nm ← exportCell df "cat_name" i
    let sc ← exportCell df "cat_supercategory" i
    pure (some { id := idv, name := nm, supercategory := sc : CatOut })
  else pure none

/-- The `if not pd.isna(df["ann_id"][i])` block of the row loop. -/
def annOutOfRow (df : Frame) (i : Nat) : Except String (Option AnnOut) := do
  let annIdCell ← exportCell df "ann_id" i
  if annIdCell ≠ Cell.nan then do
    let idv ← intE annIdCell
    let sg ← exportCell df "ann_segmentation" i
    let imidCell ← exportCell df "ann_image_id" i
    let imid ← intE imidCell
    let cidCell ← exportCell df "ann_category_id" i
    let cid ← intE cidCell
    let ar ← exportCell df "ann_area" i
    let bb ← exportCell df "ann_bbox" i
    let ic ← exportCell df "ann_iscrowd" i
    pure (some { id := idv, seg := sg, image_id := imid, category_id := cid,
                 area := ar, bbox := bb, iscrowd := ic : AnnOut })
  else pure none

/-- One iteration of `for i in range(0, df.shape[0])`: emit an image record
when `img_id` is present, a category record when `cat_id` is present, an
annotation record when `ann_id` is present. -/
def processRow (df : Frame) (i : Nat) :
    Except String (Option ImgOut × Option CatOut × Option AnnOut) := do
  let imgOut ← imgOutOfRow df i
  let catOut ← catOutOfRow df i
  let annOut ← annOutOfRow df i
  pure (imgOut, catOut, annOut)

/-- The columns the exporter's row loop reads (`img_image_name` is NOT among
them: both emitted name fields come from `img_file_name`). -/
def exporterUsedCols : List String :=
  ["img_id", "img_width", "img_height", "img_file_name",
   "cat_id", "cat_name", "cat_supercategory",
   "ann_id", "ann_segmentation", "ann_image_id", "ann_category_id",
   "ann_area", "ann_bbox", "ann_iscrowd"]

/-- The exporter's row loop over the given row indices, accumulating the
three sequences in order with no deduplication and no cross-referencing. -/
def exportRowsAux (df : Frame) : List Nat → Except String (List ImgOut × List CatOut × List AnnOut)
  | [] => .ok ([], [], [])
  | i :: rest => do
    let (oi, oc, oa) ← processRow df i
    let (restI, restC, restA) ← exportRowsAux df rest
    pure (oi.toList ++ restI, oc.toList ++ restC, oa.toList ++ restA)

/-- `AnnotationConverter.dataframe_to_bina_coco`.  The up-front
`df["ann_iscrowd"].fillna(0)` raises `KeyError` if the column is absent; at
the end, `pd.concat` of an empty list (`df_outputI` / `df_outputA` /
`df_outputC`, in that order) raises; the JSON file write happens only after
the whole loop, and the call returns the output path in a one-element
list. -/
def dataframe_to_bina_coco (df : Frame) (outputPath : String) :
    Except String (CocoDoc × List String) :=
  if "ann_iscrowd" ∈ df.names then
    match exportRowsAux df (List.range df.nrows) with
    | .error s => .error s
    | .ok (outI, outC, outA) =>
      if outI.isEmpty then .error "No objects to concatenate"
      else if outA.isEmpty then .error "No objects to concatenate"
      else if outC.isEmpty then .error "No objects to concatenate"
      else
        .ok ({ images := outI, categories := outC, anns := outA,
               licenses := [], errors := [], labels := [], classifications := [] },
             [outputPath])
  else .error "KeyError: ann_iscrowd"

/-- The files committed to disk by a call of the exporter: the single output
JSON on success, nothing when any row aborted the export. -/
def exportWrites (df : Frame) (outputPath : String) : List (String × CocoDoc) :=
  match dataframe_to_bina_coco df outputPath with
  | .ok (doc, _) => [(outputPath, doc)]
  | .error _ => []

def isOkE {α : Type} : Except String α → Bool
  | .ok _ => true
  | .error _ => false

/-- The emitted document of a successful export. -/
def docOfE : Except String (CocoDoc × List String) → Option CocoDoc
  | .ok (doc, _) => some doc
  | .error _ => none

/-- The returned path list of a successful export. -/
def pathsOfE : Except String (CocoDoc × List String) → Option (List String)
  | .ok (_, ps) => some ps
  | .error _ => none

/-- Lengths of the three emitted sequences of a successful export. -/
def docLensE (r : Except String (CocoDoc × List String)) : Option (Nat × Nat × Nat) :=
  (docOfE r).map (fun d => (d.images.length, d.categories.length, d.anns.length))

def isErrE {α : Type} : Except String α → Bool
  | .ok _ => false
  | .error _ => true

/-! ## YOLO sniffer (`AnnotationExplorer._is_yolo`) -/

/-- Python `str.split()` with no separator: split on whitespace runs,
dropping empty fields. -/
def splitWSAux : List Char → List Char → List (List Char)
  | [], acc => if acc.isEmpty then [] else [acc.reverse]
  | c :: rest, acc =>
    if c.isWhitespace then
      if acc.isEmpty then splitWSAux rest [] else acc.reverse :: splitWSAux rest []
    else splitWSAux rest (c :: acc)

def pySplitWS (s : String) : List String :=
  (splitWSAux s.toList []).map String.mk

/-- Python `part.replace('.', '', 1)`: remove the first dot, if any. -/
def removeFirstDotAux : List Char → List Char
  | [] => []
  | c :: rest => if c = '.' then rest else c :: removeFirstDotAux rest

def removeFirstDot (s : String) : String := String.mk (removeFirstDotAux s.toList)

/-- Python `str.isdigit()` (ASCII digits). -/
def pyIsdigit (s : String) : Bool :=
  !s.toList.isEmpty && s.toList.all Char.isDigit

/-- The per-line test of `_is_yolo`: `len(parts) == 5 and all(numeric)`. -/
def yoloLineOK (line : String) : Bool :=
  let parts := pySplitWS (pyStrip line)
  parts.length = 5 && parts.all (fun p => pyIsdigit (removeFirstDot p))

/-- `AnnotationExplorer._is_yolo` over the file's lines: the source returns
`True` from inside the loop as soon as ONE line passes the test, and `False`
only after the loop. -/
def is_yolo (lines : List String) : Bool := lines.any yoloLineOK

/-- Modelled from the spec's words, for comparison with `is_yolo` (the code
is the authority): a file is YOLO iff EVERY non-empty line, split on
whitespace, has exactly 5 fields each parseable as a (possibly decimal)
number, a single malformed line disqualifying the whole file. -/
def yoloSpecAllLines (lines : List String) : Bool :=
  lines.all (fun l => pyStrip l = "" || yoloLineOK l)

/-! ## File mover (`AnnotationExplorer._move_file` and the organize loop) -/

/-- Python `shutil.move(src, dst)` when `dst` is an existing directory, as in
`_move_file` (which first ensures the directory exists): the destination
becomes `dst/basename(src)`, and if that path already exists `shutil.move`
raises `shutil.Error`.  The directory is modelled by the list of basenames
it contains, in arrival order. -/
def shutilMoveIntoDir (dirContents : List String) (basename : String) :
    Except String (List String) :=
  if basename ∈ dirContents then
    .error ("Destination path already exists: " ++ basename)
  else .ok (dirContents ++ [basename])

/-- `AnnotationExplorer._move_file`: `os.makedirs(..., exist_ok=True)` (a
no-op on the modelled contents) followed by `shutil.move(file_path,
destination_folder)`. -/
def move_file (dirContents : List String) (basename : String) :
    Except String (List String) :=
  shutilMoveIntoDir dirContents basename

/-- The annotation branch of `organize_files_and_identify_format` for files
routed to one bucket, in `os.walk` order: each positive sniff calls
`_move_file`; an exception from `shutil.move` propagates and aborts the
whole run. -/
def organizeVocXmls (basenames : List String) : Except String (List String) :=
  basenames.foldlM move_file []

/-- The image branch: `shutil.move(file_path, os.path.join(images_dir,
file))` with an explicit destination path — on POSIX `os.rename` silently
replaces an existing file, so a colliding image overwrites the earlier
one. -/
def shutilMoveToPath (dirContents : List String) (basename : String) : List String :=
  if basename ∈ dirContents then dirContents else dirContents ++ [basename]

def organizeImages (basenames : List String) : List String :=
  basenames.foldl shutilMoveToPath []

/-! ## Invariants and helper predicates -/

/-- Invariant of the category / annotation bookkeeping of the object loop:
every appended annotation's category id agrees with the `categories` dict,
and the dict values and the `cat_data` ids are `0, 1, 2, ...` in insertion
order. -/
structure CatInv (s : VocState) : Prop where
  annCat : ∀ a ∈ s.annRows, alookup s.catMap a.ann_category_name = some a.ann_category_id
  catIds : s.catMap.map Prod.snd = List.range s.nextCat
  catRowIds : s.catRows.map Prod.fst = List.range s.nextCat
  annIds : s.annRows.map VocAnnRec.ann_id = List.range s.nextAnn

/-- Whether the exporter's row loop sees a present (non-missing) value for
column `c` at row `i`, after the whitespace-to-NaN replace. -/
def presentB (df : Frame) (c : String) (i : Nat) : Bool :=
  match exportCell df c i with
  | .ok x => x != Cell.nan
  | .error _ => false

/-- Number of rows of the export loop whose column `c` is present. -/
def presentCount (df : Frame) (c : String) : Nat :=
  (List.range df.nrows).countP (fun i => presentB df c i)

/-! ## Concrete example inputs -/

/-- A two-file VOC run in which the category name `"cat"` occurs in both
files. -/
def vocExample : List VocXml :=
  [⟨100, 200, "a.jpg", some "/d/a.jpg", [⟨"cat", 10, 20, 110, 220⟩, ⟨"dog", 0, 0, 5, 5⟩]⟩,
   ⟨50, 60, "b.jpg", none, [⟨"cat", 1, 1, 3, 3⟩]⟩]

/-- A one-file VOC run whose only object has VOC box `[10, 20, 110, 220]`. -/
def vocBoxExample : List VocXml :=
  [⟨100, 200, "a.jpg", none, [⟨"cat", 10, 20, 110, 220⟩]⟩]

/-- A one-file COCO run whose image carries the verbatim id 5. -/
def cocoExample : List CocoFile :=
  [⟨[⟨5, 10, 10, "a.jpg"⟩], [⟨0, "c", "s"⟩], [⟨3, 5, 0, 4, [0, 0, 2, 2], [], 0⟩]⟩]

/-- The first `"cat"` annotation of `vocExample` (file 0, object 0). -/
def vocDedupA1 : VocAnnRec := ⟨0, [], [10, 20, 100, 200], 20000, 0, 0, "cat", 0⟩

/-- The second `"cat"` annotation of `vocExample` (file 1, object 0). -/
def vocDedupA2 : VocAnnRec := ⟨2, [], [1, 1, 2, 2], 4, 1, 0, "cat", 0⟩

/-- A file whose first line is prose (5 words, so 5 whitespace fields that
are not numbers) and whose second line is a numeric 5-tuple. -/
def yoloMixedFile : List String :=
  ["it was a bright day", "0 0.5 0.5 0.25 0.25"]

/-- The raw image table of the `vocExample` run. -/
def vocImgF : Frame := vocImgFrame (runVoc vocExample)

/-- The raw annotation table of the `vocExample` run. -/
def vocAnnF : Frame := vocAnnFrame (runVoc vocExample)

/-- The raw category table of the `vocExample` run. -/
def vocCatF : Frame := vocCatFrame (runVoc vocExample)

/-- A canonical table with one image row, one category row and two
annotation rows, aligned positionally (row 1 carries only an annotation). -/
def exportExampleFrame : Frame :=
  ⟨[("img_id", [Cell.int 0, Cell.nan]),
    ("img_width", [Cell.int 10, Cell.nan]),
    ("img_height", [Cell.int 10, Cell.nan]),
    ("img_image_name", [Cell.str "a", Cell.nan]),
    ("img_file_name", [Cell.str "a.jpg", Cell.nan]),
    ("cat_id", [Cell.int 0, Cell.nan]),
    ("cat_name", [Cell.str "c", Cell.nan]),
    ("cat_supercategory", [Cell.str "s", Cell.nan]),
    ("ann_id", [Cell.int 0, Cell.int 1]),
    ("ann_segmentation", [Cell.intList [], Cell.intList []]),
    ("ann_image_id", [Cell.int 0, Cell.int 0]),
    ("ann_category_id", [Cell.int 0, Cell.int 0]),
    ("ann_area", [Cell.int 4, Cell.int 4]),
    ("ann_bbox", [Cell.intList [0, 0, 2, 2], Cell.intList [0, 0, 2, 2]]),
    ("ann_iscrowd", [Cell.int 0, Cell.int 0])]⟩

/-- A canonical table whose single annotation row has a NON-NUMERIC
`ann_area` and `ann_bbox` but numeric id fields. -/
def badAreaFrame : Frame :=
  ⟨[("img_id", [Cell.int 0]),
    ("img_width", [Cell.int 10]),
    ("img_height", [Cell.int 10]),
    ("img_file_name", [Cell.str "a.jpg"]),
    ("cat_id", [Cell.int 0]),
    ("cat_name", [Cell.str "c"]),
    ("cat_supercategory", [Cell.str "s"]),
    ("ann_id", [Cell.int 0]),
    ("ann_segmentation", [Cell.intList []]),
    ("ann_image_id", [Cell.int 0]),
    ("ann_category_id", [Cell.int 0]),
    ("ann_area", [Cell.str "abc"]),
    ("ann_bbox", [Cell.str "not a box"]),
    ("ann_iscrowd", [Cell.int 0])]⟩

/-- A canonical table whose single annotation row has a non-coercible
`ann_category_id`. -/
def badCatIdFrame : Frame :=
  ⟨[("img_id", [Cell.int 0]),
    ("img_width", [Cell.int 10]),
    ("img_height", [Cell.int 10]),
    ("img_file_name", [Cell.str "a.jpg"]),
    ("cat_id", [Cell.int 0]),
    ("cat_name", [Cell.str "c"]),
    ("cat_supercategory", [Cell.str "s"]),
    ("ann_id", [Cell.int 0]),
    ("ann_segmentation", [Cell.intList []]),
    ("ann_image_id", [Cell.int 0]),
    ("ann_category_id", [Cell.str "oops"]),
    ("ann_area", [Cell.int 4]),
    ("ann_bbox", [Cell.intList [0, 0, 2, 2]]),
    ("ann_iscrowd", [Cell.int 0])]⟩

/-! ## Lemmas about the VOC importer loop -/

theorem alookup_append_some {m : List (String × Nat)} {k : String} {v : Nat}
    (l : List (String × Nat)) (h : alookup m k = some v) :
    alookup (m ++ l) k = some v := by
  induction m with
  | nil => simp [alookup] at h
  | cons p rest ih =>
    by_cases hk : p.1 = k
    · simpa [alookup, hk] using h
    · simp only [alookup, hk, if_false, List.cons_append] at h ⊢
      simpa [alookup, hk] using ih h

theorem alookup_append_self {m : List (String × Nat)} {k : String} (v : Nat)
    (h : alookup m k = none) : alookup (m ++ [(k, v)]) k = some v := by
  induction m with
  | nil => simp [alookup]
  | cons p rest ih =>
    by_cases hk : p.1 = k
    · simp [alookup, hk] at h
    · simp only [alookup, hk, if_false] at h
      simpa [alookup, hk] using ih h

theorem insertCat_inv {s : VocState} (h : CatInv s) (nm : String) :
    CatInv (insertCat s nm) := by
  unfold insertCat
  cases hl : alookup s.catMap nm with
  | some v => exact h
  | none =>
    refine ⟨?_, ?_, ?_, h.annIds⟩
    · intro a ha
      exact alookup_append_some _ (h.annCat a ha)
    · simp [h.catIds, List.range_succ]
    · simp [h.catRowIds, List.range_succ]

theorem insertCat_lookup (s : VocState) (nm : String) :
    ∃ v, alookup (insertCat s nm).catMap nm = some v := by
  unfold insertCat
  cases hl : alookup s.catMap nm with
  | some v => exact ⟨v, hl⟩
  | none => exact ⟨s.nextCat, alookup_append_self _ hl⟩

theorem insertCat_imgRows (s : VocState) (nm : String) :
    (insertCat s nm).imgRows = s.imgRows := by
  unfold insertCat
  cases alookup s.catMap nm <;> rfl

theorem insertCat_nextImg (s : VocState) (nm : String) :
    (insertCat s nm).nextImg = s.nextImg := by
  unfold insertCat
  cases alookup s.catMap nm <;> rfl

theorem insertCat_annRows (s : VocState) (nm : String) :
    (insertCat s nm).annRows = s.annRows := by
  unfold insertCat
  cases alookup s.catMap nm <;> rfl

theorem insertCat_nextAnn (s : VocState) (nm : String) :
    (insertCat s nm).nextAnn = s.nextAnn := by
  unfold insertCat
  cases alookup s.catMap nm <;> rfl

theorem stepObj_inv {s : VocState} (h : CatInv s) (o : VocObj) :
    CatInv (stepObj s o) := by
  unfold stepObj
  obtain ⟨v, hv⟩ := insertCat_lookup s o.name
  have ht := insertCat_inv h o.name
  refine ⟨?_, ht.catIds, ht.catRowIds, ?_⟩
  · intro a ha
    simp only [List.mem_append, List.mem_singleton] at ha
    cases ha with
    | inl hmem => exact ht.annCat a hmem
    | inr heq => subst heq; simp [mkVocAnn, hv]
  · simp [ht.annIds, List.range_succ, mkVocAnn]

theorem stepObj_imgRows (s : VocState) (o : VocObj) :
    (stepObj s o).imgRows = s.imgRows := by
  unfold stepObj
  simp [insertCat_imgRows]

theorem stepObj_nextImg (s : VocState) (o : VocObj) :
    (stepObj s o).nextImg = s.nextImg := by
  unfold stepObj
  simp [insertCat_nextImg]

theorem foldl_stepObj_inv (objs : List VocObj) :
    ∀ s : VocState, CatInv s → CatInv (objs.foldl stepObj s) := by
  induction objs with
  | nil => intro s h; exact h
  | cons o rest ih => intro s h; exact ih _ (stepObj_inv h o)

theorem foldl_stepObj_imgRows (objs : List VocObj) :
    ∀ s : VocState, (objs.foldl stepObj s).imgRows = s.imgRows := by
  induction objs with
  | nil => intro s; rfl
  | cons o rest ih => intro s; rw [List.foldl_cons, ih, stepObj_imgRows]

theorem foldl_stepObj_nextImg (objs : List VocObj) :
    ∀ s : VocState, (objs.foldl stepObj s).nextImg = s.nextImg := by
  induction objs with
  | nil => intro s; rfl
  | cons o rest ih => intro s; rw [List.foldl_cons, ih, stepObj_nextImg]

theorem stepFile_inv {s : VocState} (h : CatInv s) (f : VocXml) :
    CatInv (stepFile s f) := by
  unfold stepFile
  have h1 : CatInv { s with imgRows := s.imgRows ++
      [{ img_id := s.nextImg, img_width := f.width, img_height := f.height,
         img_image_name := f.filename, img_file_name := f.path.getD "" }] } :=
    ⟨h.annCat, h.catIds, h.catRowIds, h.annIds⟩
  have h2 := foldl_stepObj_inv f.objects _ h1
  exact ⟨h2.annCat, h2.catIds, h2.catRowIds, h2.annIds⟩

theorem runVoc_inv (files : List VocXml) : CatInv (runVoc files) := by
  unfold runVoc
  have base : CatInv initVocState := ⟨by intro a ha; simp [initVocState] at ha, rfl, rfl, rfl⟩
  generalize initVocState = s0 at base ⊢
  induction files generalizing s0 with
  | nil => exact base
  | cons f rest ih => exact ih _ (stepFile_inv base f)

/-- The image-id bookkeeping of the file loop. -/
theorem stepFile_imgIds {s : VocState} (f : VocXml)
    (h : s.imgRows.map VocImgRec.img_id = List.range s.nextImg) :
    (stepFile s f).imgRows.map VocImgRec.img_id = List.range (stepFile s f).nextImg := by
  simp only [stepFile]
  rw [foldl_stepObj_imgRows, foldl_stepObj_nextImg]
  simp [h, List.range_succ]

theorem runVoc_imgIds (files : List VocXml) :
    (runVoc files).imgRows.map VocImgRec.img_id = List.range (runVoc files).nextImg := by
  unfold runVoc
  have base : initVocState.imgRows.map VocImgRec.img_id = List.range initVocState.nextImg := rfl
  generalize initVocState = s0 at base ⊢
  induction files generalizing s0 with
  | nil => exact base
  | cons f rest ih => exact ih _ (stepFile_imgIds f base)

theorem stepFile_nextImg (s : VocState) (f : VocXml) :
    (stepFile s f).nextImg = s.nextImg + 1 := by
  simp only [stepFile]
  rw [foldl_stepObj_nextImg]

theorem runVoc_nextImg (files : List VocXml) :
    (runVoc files).nextImg = files.length := by
  unfold runVoc
  have : ∀ (fs : List VocXml) (s : VocState),
      (fs.foldl stepFile s).nextImg = s.nextImg + fs.length := by
    intro fs
    induction fs with
    | nil => intro s; simp
    | cons f rest ih =>
      intro s
      rw [List.foldl_cons, ih, stepFile_nextImg]
      simp [List.length_cons]
      omega
  simpa [initVocState] using this files initVocState

/-! ## Claim C1: category deduplication in the VOC importer -/

/-- C1 (confirmed).  For every VOC import run, any two `object` elements with
identical `name` text — anywhere across the run's files — resolve to the same
`cat_id`, and the category ids of `cat_data` are assigned in first-seen order
strictly increasing from 0 (hence unique within the run). -/
theorem voc_category_dedup (files : List VocXml) :
    (∀ a1 a2, a1 ∈ (runVoc files).annRows → a2 ∈ (runVoc files).annRows →
        a1.ann_category_name = a2.ann_category_name →
        a1.ann_category_id = a2.ann_category_id) ∧
    (runVoc files).catRows.map Prod.fst = List.range (runVoc files).catRows.length := by
  have h := runVoc_inv files
  constructor
  · intro a1 a2 h1 h2 hn
    have e1 := h.annCat a1 h1
    have e2 := h.annCat a2 h2
    rw [hn] at e1
    exact Option.some.inj (e1.symm.trans e2)
  · have hlen : (runVoc files).catRows.length = (runVoc files).nextCat := by
      have := congrArg List.length h.catRowIds
      simpa using this
    rw [hlen]
    exact h.catRowIds

/-- Witness for C1 at the concrete run `vocExample`. -/
theorem voc_category_dedup_witness :
    vocDedupA1 ∈ (runVoc vocExample).annRows ∧
    vocDedupA2 ∈ (runVoc vocExample).annRows ∧
    vocDedupA1.ann_category_id = vocDedupA2.ann_category_id :=
  ⟨by decide, by decide,
   (voc_category_dedup vocExample).1 vocDedupA1 vocDedupA2 (by decide) (by decide) rfl⟩

/-! ## Claim C2: VOC bounding-box conversion -/

/-- C2 (confirmed).  `_parse_voc_annotation` stores the canonical bbox as
`[xmin, ymin, xmax - xmin, ymax - ymin]` and the area as
`(xmax - xmin) * (ymax - ymin)`; every processed object appends exactly one
such record; in particular VOC box `[10, 20, 110, 220]` yields bbox
`[10, 20, 100, 200]` and area `20000`, both in the loop state and in the
canonical table. -/
theorem voc_bbox_conversion :
    (∀ (annId imgId cid : Nat) (o : VocObj),
        (mkVocAnn annId o imgId cid).ann_bbox =
          [o.xmin, o.ymin, o.xmax - o.xmin, o.ymax - o.ymin] ∧
        (mkVocAnn annId o imgId cid).ann_area = (o.xmax - o.xmin) * (o.ymax - o.ymin)) ∧
    (∀ (s : VocState) (o : VocObj), ∃ cid : Nat,
        (stepObj s o).annRows = s.annRows ++ [mkVocAnn s.nextAnn o s.nextImg cid]) ∧
    (runVoc vocBoxExample).annRows.map (fun a => (a.ann_bbox, a.ann_area)) =
      [([10, 20, 100, 200], 20000)] ∧
    ((voc_to_dataframe vocBoxExample).map
        (fun df => (df.cell "ann_bbox" 0, df.cell "ann_area" 0))) =
      some (Cell.intList [10, 20, 100, 200], Cell.int 20000) := by
  refine ⟨fun annId imgId cid o => ⟨rfl, rfl⟩, ?_, by decide, by decide⟩
  intro s o
  refine ⟨(alookup (insertCat s o.name).catMap o.name).getD 0, ?_⟩
  simp [stepObj, insertCat_annRows, insertCat_nextAnn, insertCat_nextImg]

/-! ## Claim C6: id monotonicity -/

/-- C6 counterexample.  The claim asserts that for ALL runs the `img_id`
sequence is contiguous from 0; but the COCO importer takes ids verbatim from
the input file, so the run `cocoExample` (one image with id 5) produces the
`img_id` column `[5]`, not `[0]`. -/
theorem id_monotonicity_counterexample :
    ((coco_to_dataframe cocoExample).bind (fun df => df.col? "img_id")) =
      some [Cell.int 5] ∧
    some [Cell.int 5] ≠ some [Cell.int 0] := by
  constructor
  · decide
  · decide

/-- C6 (amended).  For VOC runs, `img_id` is `0, 1, 2, ...` in file-discovery
order and `ann_id` is `0, 1, 2, ...` in global object-processing order
(independent of `img_id`); the COCO importer instead copies every `img_id`
verbatim from the input files. -/
theorem id_monotonicity_amended :
    (∀ files : List VocXml,
        (runVoc files).imgRows.map VocImgRec.img_id = List.range files.length ∧
        (runVoc files).annRows.map VocAnnRec.ann_id =
          List.range (runVoc files).annRows.length) ∧
    (∀ cfiles : List CocoFile, cocoAllImages cfiles ≠ [] →
        (cocoImgFrame cfiles).col? "img_id" =
          some ((cocoAllImages cfiles).map (fun im => Cell.int im.id))) := by
  constructor
  · intro files
    constructor
    · rw [runVoc_imgIds, runVoc_nextImg]
    · have h := (runVoc_inv files).annIds
      have hlen : (runVoc files).annRows.length = (runVoc files).nextAnn := by
        have := congrArg List.length h
        simpa using this
      rw [hlen]
      exact h
  · intro cfiles hne
    have hemp : (cocoAllImages cfiles).isEmpty = false := by
      cases hc : cocoAllImages cfiles with
      | nil => exact absurd hc hne
      | cons a l => rfl
    simp [cocoImgFrame, framed, hemp, Frame.col?, colFind]

/-- Witness for C6 (amended) at `vocExample` and `cocoExample`. -/
theorem id_monotonicity_witness :
    (runVoc vocExample).imgRows.map VocImgRec.img_id = List.range 2 ∧
    (cocoImgFrame cocoExample).col? "img_id" = some [Cell.int 5] :=
  ⟨(id_monotonicity_amended.1 vocExample).1,
   id_monotonicity_amended.2 cocoExample (by decide)⟩

/-! ## Claim C3: YOLO sniffer -/

/-- C3 counterexample.  The claim says a single malformed line disqualifies
the whole file (classification is YOLO iff EVERY non-empty line passes the
5-numeric-fields test).  The source returns `True` from inside the loop as
soon as ONE line passes, so `yoloMixedFile` — whose first line is malformed —
is still classified YOLO, while the claim's every-line characterization
rejects it. -/
theorem yolo_sniffer_counterexample :
    is_yolo yoloMixedFile = true ∧ yoloSpecAllLines yoloMixedFile = false := by
  constructor
  · decide
  · decide

/-- C3 (amended).  A file is classified YOLO iff AT LEAST ONE of its lines,
split on whitespace, has exactly 5 fields each parseable as a (possibly
decimal) number; consequently a prose `.txt` file with no such line is still
classified UNKNOWN, not YOLO. -/
theorem yolo_sniffer_amended :
    (∀ lines : List String,
        is_yolo lines = true ↔ ∃ l ∈ lines, yoloLineOK l = true) ∧
    is_yolo ["some prose line", "another line of text here now"] = false := by
  refine ⟨fun lines => ?_, by decide⟩
  simp [is_yolo, List.any_eq_true]

/-- Witness for C3 (amended): the forward direction applied to a one-line
numeric file. -/
theorem yolo_sniffer_amended_witness :
    is_yolo ["0 0.5 0.5 0.25 0.25"] = true ∧
    (∃ l ∈ ["0 0.5 0.5 0.25 0.25"], yoloLineOK l = true) :=
  ⟨by decide, (yolo_sniffer_amended.1 ["0 0.5 0.5 0.25 0.25"]).mp (by decide)⟩

/-! ## Claim C4: move collision policy -/

/-- C4 (code bug).  The spec requires the mover to append a numeric suffix on
a name collision so that no file is ever overwritten and both same-named
files survive.  The code does neither: for annotation files, `_move_file`
calls `shutil.move(file_path, destination_folder)` with the destination
directory as target, which RAISES `shutil.Error` when
`destination_folder/basename` already exists, aborting the organize run; for
image files, the explicit-destination move silently OVERWRITES, leaving one
file where two were organized. -/
theorem move_collision_failure :
    isErrE (organizeVocXmls ["f.xml", "f.xml"]) = true ∧
    isOkE (move_file ["f.xml"] "f.xml") = false ∧
    organizeImages ["f.png", "f.png"] = ["f.png"] ∧
    (organizeImages ["f.png", "f.png"]).length ≠ 2 := by
  refine ⟨by decide, by decide, by decide, by decide⟩

/-! ## Lemmas about frames -/

theorem colFind_cons (n : String) (cs : List Cell) (l : List (String × List Cell))
    (c : String) :
    colFind ((n, cs) :: l) c = if n = c then some cs else colFind l c := rfl

theorem colFind_eq_none {l : List (String × List Cell)} {c : String} :
    colFind l c = none ↔ c ∉ l.map Prod.fst := by
  induction l with
  | nil => simp [colFind]
  | cons p rest ih =>
    by_cases h : p.1 = c
    · subst h
      simp [colFind]
    · have h2 : c ≠ p.1 := fun hh => h hh.symm
      simp [colFind, h, ih, h2]

theorem colFind_append_right {l₁ l₂ : List (String × List Cell)} {c : String}
    (h : c ∉ l₁.map Prod.fst) : colFind (l₁ ++ l₂) c = colFind l₂ c := by
  induction l₁ with
  | nil => rfl
  | cons p rest ih =>
    simp only [List.map_cons, List.mem_cons, not_or] at h
    have h1 : p.1 ≠ c := fun hh => h.1 hh.symm
    simpa [colFind, h1] using ih h.2

theorem colFind_append_left {l₁ l₂ : List (String × List Cell)} {c : String} {cs : List Cell}
    (h : colFind l₁ c = some cs) : colFind (l₁ ++ l₂) c = some cs := by
  induction l₁ with
  | nil => simp [colFind] at h
  | cons p rest ih =>
    by_cases h1 : p.1 = c
    · simp only [colFind, h1, if_true] at h
      simpa [colFind, h1] using h
    · simp only [colFind, h1, if_false] at h
      simpa [colFind, h1] using ih h

theorem colFind_mem_names {l : List (String × List Cell)} {c : String} {cs : List Cell}
    (h : colFind l c = some cs) : c ∈ l.map Prod.fst := by
  induction l with
  | nil => simp [colFind] at h
  | cons p rest ih =>
    by_cases h1 : p.1 = c
    · simp [h1]
    · simp only [colFind, h1, if_false] at h
      simp [ih h]

theorem colFind_map_snd {c : String} (g : List Cell → List Cell)
    (l : List (String × List Cell)) :
    colFind (l.map (fun p => (p.1, g p.2))) c = (colFind l c).map g := by
  induction l with
  | nil => rfl
  | cons p rest ih =>
    by_cases h : p.1 = c <;> simp [colFind, h, ih]

theorem colFind_map_mk (ns : List String) (g : String → List Cell) (c : String) :
    colFind (ns.map (fun nm => (nm, g nm))) c =
      if c ∈ ns then some (g c) else none := by
  induction ns with
  | nil => simp [colFind]
  | cons nm rest ih =>
    by_cases h : nm = c
    · subst h
      simp [colFind]
    · have h2 : c ≠ nm := fun hh => h hh.symm
      simp [colFind, h, ih, h2]

theorem colFind_setCol (l : List (String × List Cell)) (c : String) (cs : List Cell)
    (c' : String) :
    colFind (l.map (fun p => if p.1 = c then (p.1, cs) else p)) c' =
      if c' = c then (colFind l c').map (fun _ => cs) else colFind l c' := by
  induction l with
  | nil => by_cases h : c' = c <;> simp [colFind, h]
  | cons p rest ih =>
    obtain ⟨n, csp⟩ := p
    rw [List.map_cons]
    by_cases h1 : n = c
    · have hhead : (if (n, csp).1 = c then ((n, csp).1, cs) else (n, csp)) = (n, cs) := by
        simp [h1]
      rw [hhead]
      by_cases h3 : c' = c
      · have h2 : n = c' := h1.trans h3.symm
        simp [colFind_cons, h2, h3, ih]
      · have h2 : ¬n = c' := fun hh => h3 (hh.symm.trans h1)
        simp [colFind_cons, h2, h3, ih]
    · have hhead : (if (n, csp).1 = c then ((n, csp).1, cs) else (n, csp)) = (n, csp) := by
        simp [h1]
      rw [hhead]
      by_cases h2 : n = c'
      · have h3 : ¬c' = c := fun hh => h1 (h2.trans hh)
        simp [colFind_cons, h2, h3, ih]
      · simp [colFind_cons, h1, h2, ih]

theorem names_setCol (f : Frame) (c : String) (cs : List Cell) :
    (f.setCol c cs).names = f.names := by
  simp only [Frame.setCol, Frame.names, List.map_map]
  exact List.map_congr_left (fun p _ => by
    simp only [Function.comp_apply]
    split <;> rfl)

theorem names_mapCol (f : Frame) (c : String) (g : Cell → Cell) :
    (f.mapCol c g).names = f.names := by
  simp only [Frame.mapCol, Frame.names, List.map_map]
  exact List.map_congr_left (fun p _ => by
    simp only [Function.comp_apply]
    split <;> rfl)

theorem names_fillna (f : Frame) (v : Cell) : (f.fillna v).names = f.names := by
  simp [Frame.fillna, Frame.names, Function.comp_def]

theorem names_reindex (f : Frame) (ns : List String) (v : Cell) :
    (f.reindex ns v).names = ns := by
  simp [Frame.reindex, Frame.names, List.map_map, Function.comp_def]

theorem names_concat3 (a b c : Frame) :
    (concat3 a b c).names = a.names ++ b.names ++ c.names := by
  simp [concat3, Frame.names, Function.comp_def]

theorem names_fixDimStep (g : Frame) (c : String) : (fixDimStep g c).names = g.names := by
  unfold fixDimStep
  cases g.col? c with
  | none => rfl
  | some cs => exact names_setCol g c (imgDimFix cs)

theorem names_fixImgDims (f : Frame) : (fixImgDims f).names = f.names := by
  unfold fixImgDims
  rw [List.foldl_cons, List.foldl_cons, List.foldl_nil, names_fixDimStep, names_fixDimStep]

theorem col?_setCol (f : Frame) (c : String) (cs : List Cell) (c' : String) :
    (f.setCol c cs).col? c' =
      if c' = c then (f.col? c').map (fun _ => cs) else f.col? c' :=
  colFind_setCol f.cols c cs c'

theorem col?_fillna (f : Frame) (v : Cell) (c : String) :
    (f.fillna v).col? c = (f.col? c).map (List.map (fillCell v)) :=
  colFind_map_snd (List.map (fillCell v)) f.cols

theorem col?_reindex (f : Frame) (ns : List String) (v : Cell) (c : String) :
    (f.reindex ns v).col? c =
      if c ∈ ns then
        some
          (match f.col? c with
           | some cs => cs
           | none => List.replicate f.nrows v)
      else none := by
  simp only [Frame.reindex, Frame.col?]
  exact colFind_map_mk ns _ c

theorem col?_concat3 (a b c : Frame) (nm : String) :
    (concat3 a b c).col? nm =
      (colFind (a.cols ++ b.cols ++ c.cols) nm).map
        (padTo (max a.nrows (max b.nrows c.nrows))) := by
  simp only [concat3, Frame.col?]
  exact colFind_map_snd _ _

theorem col?_concat3_third {a b : Frame} (c : Frame) {nm : String}
    (ha : nm ∉ a.names) (hb : nm ∉ b.names) :
    (concat3 a b c).col? nm =
      (c.col? nm).map (padTo (max a.nrows (max b.nrows c.nrows))) := by
  rw [col?_concat3]
  have h1 : colFind (a.cols ++ (b.cols ++ c.cols)) nm = colFind (b.cols ++ c.cols) nm :=
    colFind_append_right ha
  have h2 : colFind (b.cols ++ c.cols) nm = colFind c.cols nm :=
    colFind_append_right hb
  rw [List.append_assoc, h1, h2]
  rfl

theorem col?_concat3_second {a : Frame} (b c : Frame) {nm : String} {cs : List Cell}
    (ha : nm ∉ a.names) (hb : b.col? nm = some cs) :
    (concat3 a b c).col? nm =
      some (padTo (max a.nrows (max b.nrows c.nrows)) cs) := by
  rw [col?_concat3]
  have h1 : colFind (a.cols ++ (b.cols ++ c.cols)) nm = colFind (b.cols ++ c.cols) nm :=
    colFind_append_right ha
  have h2 : colFind (b.cols ++ c.cols) nm = some cs := colFind_append_left hb
  rw [List.append_assoc, h1, h2]
  rfl

theorem col?_concat3_none {a b c : Frame} {nm : String}
    (ha : nm ∉ a.names) (hb : nm ∉ b.names) (hc : nm ∉ c.names) :
    (concat3 a b c).col? nm = none := by
  rw [col?_concat3_third c ha hb]
  have hx : c.col? nm = none := colFind_eq_none.mpr hc
  rw [hx]
  rfl

theorem getD_mem_or_nan (cs : List Cell) (i : Nat) :
    cs.getD i Cell.nan ∈ cs ∨ cs.getD i Cell.nan = Cell.nan := by
  induction cs generalizing i with
  | nil => right; simp
  | cons x rest ih =>
    cases i with
    | zero => left; simp
    | succ j =>
      rw [List.getD_cons_succ]
      rcases ih j with h | h
      · exact Or.inl (List.mem_cons_of_mem x h)
      · exact Or.inr h

theorem mem_padTo {x : Cell} {n : Nat} {cs : List Cell} (h : x ∈ padTo n cs) :
    x ∈ cs ∨ x = Cell.nan := by
  simp only [padTo, List.mem_append, List.mem_replicate] at h
  rcases h with h | h
  · exact Or.inl h
  · exact Or.inr h.2

theorem optMapCells_forall {g : Cell → Option Cell} {P : Cell → Prop}
    (hg : ∀ c x, g c = some x → P x) :
    ∀ {cs cs' : List Cell}, optMapCells g cs = some cs' → ∀ x ∈ cs', P x := by
  intro cs
  induction cs with
  | nil =>
    intro cs' h x hx
    simp only [optMapCells, Option.some.injEq] at h
    subst h
    simp at hx
  | cons c rest ih =>
    intro cs' h x hx
    simp only [optMapCells, Option.bind_eq_bind, Option.bind_eq_some, Option.pure_def,
      Option.some.injEq] at h
    obtain ⟨c2, hc2, rest2, hrest2, rfl⟩ := h
    rcases List.mem_cons.mp hx with rfl | hmem
    · exact hg c x hc2
    · exact ih hrest2 x hmem

theorem toNumericCellInt?_isInt (c x : Cell) (h : toNumericCellInt? c = some x) :
    x.isInt = true := by
  cases c with
  | nan => simp only [toNumericCellInt?, Option.some.injEq] at h; subst h; rfl
  | int n => simp only [toNumericCellInt?, Option.some.injEq] at h; subst h; rfl
  | str s =>
    simp only [toNumericCellInt?, Option.map_eq_some'] at h
    obtain ⟨n, _, rfl⟩ := h
    rfl
  | intList xs => simp [toNumericCellInt?] at h

theorem toNumeric_all_int {cs cs' : List Cell} (h : toNumericFillAstypeInt? cs = some cs') :
    ∀ x ∈ cs', x.isInt = true :=
  optMapCells_forall toNumericCellInt?_isInt h

/-- Success shape of `_prepare_dataframe`. -/
theorem prepare_eq_some_iff {imagesDf annsDf catsDf df : Frame} :
    prepare_dataframe imagesDf annsDf catsDf = some df ↔
    ∃ catCells catCells2 annCells,
      catsDf.col? "cat_id" = some catCells ∧
      toNumericFillAstypeInt? catCells = some catCells2 ∧
      annsDf.col? "ann_category_id" = some annCells ∧
      (preConcat imagesDf annsDf catsDf annCells catCells2).names.Nodup ∧
      df = (preConcat imagesDf annsDf catsDf annCells catCells2).reindex schema
        (Cell.str "") := by
  constructor
  · intro h
    unfold prepare_dataframe at h
    split at h
    · exact absurd h (by simp)
    next catCells hcc =>
      split at h
      · exact absurd h (by simp)
      next catCells2 hc2 =>
        split at h
        · exact absurd h (by simp)
        next annCells hac =>
          split at h
          next hnd =>
            exact ⟨catCells, catCells2, annCells, hcc, hc2, hac, hnd,
              (Option.some.inj h).symm⟩
          next hnd => exact absurd h (by simp)
  · rintro ⟨catCells, catCells2, annCells, h1, h2, h3, h4, rfl⟩
    unfold prepare_dataframe
    rw [h1]
    simp [h2, h3, h4]

theorem isIntOrNan_of_isInt {x : Cell} (h : x.isInt = true) : x.isIntOrNan = true := by
  cases x <;> simp_all [Cell.isInt, Cell.isIntOrNan]

theorem isStrOrNan_of_isStr {x : Cell} (h : x.isStr = true) : x.isStrOrNan = true := by
  cases x <;> simp_all [Cell.isStr, Cell.isStrOrNan]

/-! ## Claim C5: schema completeness -/

/-- C5 counterexample.  The claim speaks of "the fixed 22-column schema", but
the canonical table produced by a VOC run has exactly the columns of
`schema`, which number 23, not 22. -/
theorem schema_column_count_counterexample :
    ((voc_to_dataframe vocExample).map (fun df => df.names.length)) = some 23 ∧
    (23 : Nat) ≠ 22 := by
  constructor
  · decide
  · decide

/-- C5 (amended).  Every canonical table produced by `_prepare_dataframe`
(the final step of both the VOC and the COCO import path) has exactly the
23 columns of the fixed `schema`, in the fixed order, regardless of which
columns the source frames provided; a schema column absent from all three
source frames is created and filled with the empty-string sentinel. -/
theorem schema_completeness_amended (imagesDf annsDf catsDf : Frame)
    (h : (prepare_dataframe imagesDf annsDf catsDf).isSome = true) :
    ((prepare_dataframe imagesDf annsDf catsDf).map Frame.names = some schema) ∧
    (∀ c ∈ schema, c ∉ imagesDf.names → c ∉ annsDf.names → c ∉ catsDf.names →
      ∃ n : Nat,
        ((prepare_dataframe imagesDf annsDf catsDf).bind (fun df => df.col? c)) =
          some (List.replicate n (Cell.str ""))) := by
  obtain ⟨df, hdf⟩ := Option.isSome_iff_exists.mp h
  obtain ⟨catCells, catCells2, annCells, h1, h2, h3, h4, hdfeq⟩ :=
    prepare_eq_some_iff.mp hdf
  subst hdfeq
  constructor
  · rw [hdf]
    simp [names_reindex]
  · intro c hc hci hca hcc
    rw [hdf, Option.some_bind]
    have hA : c ∉ ((fixImgDims imagesDf).fillna (Cell.str "")).names := by
      rw [names_fillna, names_fixImgDims]
      exact hci
    have hB : c ∉ ((annsDf.setCol "ann_category_id"
        (annCells.map (fun x => Cell.str (pyStrOfCell x)))).fillna (Cell.str "")).names := by
      rw [names_fillna, names_setCol]
      exact hca
    have hC : c ∉ (catsDf.setCol "cat_id" catCells2).names := by
      rw [names_setCol]
      exact hcc
    have hnone : (preConcat imagesDf annsDf catsDf annCells catCells2).col? c = none := by
      unfold preConcat
      exact col?_concat3_none hA hB hC
    refine ⟨(preConcat imagesDf annsDf catsDf annCells catCells2).nrows, ?_⟩
    rw [col?_reindex, if_pos hc, hnone]

/-- Witness for C5 (amended) at the raw frames of the `vocExample` run. -/
theorem schema_completeness_witness :
    (prepare_dataframe vocImgF vocAnnF vocCatF).map Frame.names = some schema :=
  (schema_completeness_amended vocImgF vocAnnF vocCatF (by decide)).1

/-! ## Claim C9: `cat_id` representation on the import path -/

/-- C9 counterexample.  The claim says every canonical table produced by an
importer stores `cat_id` as a string; but `_prepare_dataframe` runs
`pd.to_numeric(...).fillna(0).astype(int)` on `cat_id`, so the table of the
VOC run `vocExample` holds the integer 0 there, not a string. -/
theorem cat_id_not_string_counterexample :
    ((voc_to_dataframe vocExample).map (fun df => df.cell "cat_id" 0)) =
      some (Cell.int 0) ∧
    (Cell.int 0).isStr = false := by
  constructor
  · decide
  · decide

/-- C9 (amended).  In every canonical table produced by
`_prepare_dataframe`, the `ann_category_id` column holds strings (it is
`astype(str)`-coerced; padding rows read as missing), while the `cat_id`
column holds INTEGERS — the integer coercion of `cat_id` happens already on
the import/normalize path, not only at COCO export (where ids are coerced
again); only the standalone `Xml2df.py`/`Coco2df.py` variants keep `cat_id`
as a string. -/
theorem cat_id_representation_amended (imagesDf annsDf catsDf : Frame)
    (h : (prepare_dataframe imagesDf annsDf catsDf).isSome = true) :
    (∀ i : Nat, ((prepare_dataframe imagesDf annsDf catsDf).map
        (fun df => (df.cell "cat_id" i).isIntOrNan)) = some true) ∧
    (∀ i : Nat, ((prepare_dataframe imagesDf annsDf catsDf).map
        (fun df => (df.cell "ann_category_id" i).isStrOrNan)) = some true) := by
  obtain ⟨df, hdf⟩ := Option.isSome_iff_exists.mp h
  obtain ⟨catCells, catCells2, annCells, h1, h2, h3, h4, hdfeq⟩ :=
    prepare_eq_some_iff.mp hdf
  subst hdfeq
  have hnames : ((fixImgDims imagesDf).fillna (Cell.str "")).names ++
      (((annsDf.setCol "ann_category_id"
          (annCells.map (fun x => Cell.str (pyStrOfCell x)))).fillna
            (Cell.str "")).names ++
        (catsDf.setCol "cat_id" catCells2).names) =
      (preConcat imagesDf annsDf catsDf annCells catCells2).names := by
    unfold preConcat
    rw [names_concat3, List.append_assoc]
  rw [← hnames] at h4
  rw [List.nodup_append] at h4
  obtain ⟨hndA, hndBC, hdisjA⟩ := h4
  rw [List.nodup_append] at hndBC
  obtain ⟨hndB, hndC, hdisjB⟩ := hndBC
  have hmemCat : "cat_id" ∈ (catsDf.setCol "cat_id" catCells2).names := by
    rw [names_setCol]
    exact colFind_mem_names h1
  have hmemAnn : "ann_category_id" ∈ ((annsDf.setCol "ann_category_id"
      (annCells.map (fun x => Cell.str (pyStrOfCell x)))).fillna (Cell.str "")).names := by
    rw [names_fillna, names_setCol]
    exact colFind_mem_names h3
  have hcatA : "cat_id" ∉ ((fixImgDims imagesDf).fillna (Cell.str "")).names :=
    fun hmem => hdisjA hmem (List.mem_append_right _ hmemCat)
  have hcatB : "cat_id" ∉ ((annsDf.setCol "ann_category_id"
      (annCells.map (fun x => Cell.str (pyStrOfCell x)))).fillna
        (Cell.str "")).names :=
    fun hmem => hdisjB hmem hmemCat
  have hannA : "ann_category_id" ∉ ((fixImgDims imagesDf).fillna (Cell.str "")).names :=
    fun hmem => hdisjA hmem (List.mem_append_left _ hmemAnn)
  have hcatC : (catsDf.setCol "cat_id" catCells2).col? "cat_id" = some catCells2 := by
    rw [col?_setCol, if_pos rfl, h1]
    rfl
  have hXcat : ∃ N, (preConcat imagesDf annsDf catsDf annCells catCells2).col? "cat_id" =
      some (padTo N catCells2) := by
    unfold preConcat
    rw [col?_concat3_third _ hcatA hcatB, hcatC]
    exact ⟨_, rfl⟩
  obtain ⟨N1, hXcat⟩ := hXcat
  have hBcol2 : ((annsDf.setCol "ann_category_id"
      (annCells.map (fun x => Cell.str (pyStrOfCell x)))).fillna
        (Cell.str "")).col? "ann_category_id" =
      some ((annCells.map (fun x => Cell.str (pyStrOfCell x))).map
        (fillCell (Cell.str ""))) := by
    rw [col?_fillna, col?_setCol, if_pos rfl, h3]
    rfl
  have hXann : ∃ N, (preConcat imagesDf annsDf catsDf annCells catCells2).col?
      "ann_category_id" =
      some (padTo N ((annCells.map (fun x => Cell.str (pyStrOfCell x))).map
        (fillCell (Cell.str "")))) := by
    unfold preConcat
    rw [col?_concat3_second _ _ hannA hBcol2]
    exact ⟨_, rfl⟩
  obtain ⟨N2, hXann⟩ := hXann
  constructor
  · intro i
    rw [hdf]
    simp only [Option.map_some']
    have hcell : ((preConcat imagesDf annsDf catsDf annCells catCells2).reindex schema
        (Cell.str "")).cell "cat_id" i = (padTo N1 catCells2).getD i Cell.nan := by
      unfold Frame.cell
      rw [col?_reindex, if_pos (by decide : "cat_id" ∈ schema), hXcat]
    rw [hcell]
    rcases getD_mem_or_nan (padTo N1 catCells2) i with hmem | hnan
    · rcases mem_padTo hmem with hmem2 | hnan2
      · exact congrArg some (isIntOrNan_of_isInt (toNumeric_all_int h2 _ hmem2))
      · rw [hnan2]
        rfl
    · rw [hnan]
      rfl
  · intro i
    rw [hdf]
    simp only [Option.map_some']
    have hcell : ((preConcat imagesDf annsDf catsDf annCells catCells2).reindex schema
        (Cell.str "")).cell "ann_category_id" i =
        (padTo N2 ((annCells.map (fun x => Cell.str (pyStrOfCell x))).map
          (fillCell (Cell.str "")))).getD i Cell.nan := by
      unfold Frame.cell
      rw [col?_reindex, if_pos (by decide : "ann_category_id" ∈ schema), hXann]
    rw [hcell]
    rcases getD_mem_or_nan (padTo N2 ((annCells.map (fun x => Cell.str (pyStrOfCell x))).map
        (fillCell (Cell.str "")))) i with hmem | hnan
    · rcases mem_padTo hmem with hmem2 | hnan2
      · simp only [List.mem_map] at hmem2
        obtain ⟨y, hy, hEq⟩ := hmem2
        obtain ⟨z, hz, rfl⟩ := hy
        rw [← hEq]
        rfl
      · rw [hnan2]
        rfl
    · rw [hnan]
      rfl

/-! ## Lemmas about the exporter -/

theorem ok_bind {α β : Type} (a : α) (k : α → Except String β) :
    (Except.ok a >>= k) = k a := rfl

theorem error_bind {α β : Type} (s : String) (k : α → Except String β) :
    ((Except.error s : Except String α) >>= k) = Except.error s := rfl

theorem throw_bind {α β : Type} (s : String) (k : α → Except String β) :
    ((throw s : Except String α) >>= k) = Except.error s := rfl

theorem pure_bind_except {α β : Type} (a : α) (k : α → Except String β) :
    ((pure a : Except String α) >>= k) = k a := rfl

theorem exceptBind_eq_ok {α β : Type} {e : Except String α} {k : α → Except String β}
    {b : β} : (e >>= k) = .ok b ↔ ∃ a, e = .ok a ∧ k a = .ok b := by
  cases e with
  | ok a => simp [ok_bind]
  | error s => simp [error_bind]

theorem isErrE_iff {α : Type} {e : Except String α} : isErrE e = true ↔ ∃ s, e = .error s := by
  cases e <;> simp [isErrE]

theorem isOkE_iff {α : Type} {e : Except String α} : isOkE e = true ↔ ∃ a, e = .ok a := by
  cases e <;> simp [isOkE]

theorem isErrE_bind {α β : Type} {e : Except String α} (k : α → Except String β)
    (h : isErrE e = true) : isErrE (e >>= k) = true := by
  obtain ⟨s, hs⟩ := isErrE_iff.mp h
  rw [hs, error_bind]
  rfl

theorem imgOutOfRow_isSome {df : Frame} {i : Nat} {oi : Option ImgOut}
    (h : imgOutOfRow df i = .ok oi) : oi.isSome = presentB df "img_id" i := by
  unfold imgOutOfRow at h
  cases hc : exportCell df "img_id" i with
  | error s =>
    rw [hc, error_bind] at h
    exact Except.noConfusion h
  | ok x =>
    rw [hc, ok_bind] at h
    by_cases hx : x = Cell.nan
    · subst hx
      rw [if_neg (fun hcon : Cell.nan ≠ Cell.nan => hcon rfl)] at h
      have hoi := Except.ok.inj h
      simp [← hoi, presentB, hc]
    · rw [if_pos hx] at h
      obtain ⟨idv, _, h⟩ := exceptBind_eq_ok.mp h
      obtain ⟨w, _, h⟩ := exceptBind_eq_ok.mp h
      obtain ⟨ht, _, h⟩ := exceptBind_eq_ok.mp h
      obtain ⟨fn, _, h⟩ := exceptBind_eq_ok.mp h
      have hoi := Except.ok.inj h
      simp [← hoi, presentB, hc, bne_iff_ne, hx]

theorem catOutOfRow_isSome {df : Frame} {i : Nat} {oc : Option CatOut}
    (h : catOutOfRow df i = .ok oc) : oc.isSome = presentB df "cat_id" i := by
  unfold catOutOfRow at h
  cases hc : exportCell df "cat_id" i with
  | error s =>
    rw [hc, error_bind] at h
    exact Except.noConfusion h
  | ok x =>
    rw [hc, ok_bind] at h
    by_cases hx : x = Cell.nan
    · subst hx
      rw [if_neg (fun hcon : Cell.nan ≠ Cell.nan => hcon rfl)] at h
      have hoc := Except.ok.inj h
      simp [← hoc, presentB, hc]
    · rw [if_pos hx] at h
      obtain ⟨idv, _, h⟩ := exceptBind_eq_ok.mp h
      obtain ⟨nm, _, h⟩ := exceptBind_eq_ok.mp h
      obtain ⟨sc, _, h⟩ := exceptBind_eq_ok.mp h
      have hoc := Except.ok.inj h
      simp [← hoc, presentB, hc, bne_iff_ne, hx]

theorem annOutOfRow_isSome {df : Frame} {i : Nat} {oa : Option AnnOut}
    (h : annOutOfRow df i = .ok oa) : oa.isSome = presentB df "ann_id" i := by
  unfold annOutOfRow at h
  cases hc : exportCell df "ann_id" i with
  | error s =>
    rw [hc, error_bind] at h
    exact Except.noConfusion h
  | ok x =>
    rw [hc, ok_bind] at h
    by_cases hx : x = Cell.nan
    · subst hx
      rw [if_neg (fun hcon : Cell.nan ≠ Cell.nan => hcon rfl)] at h
      have hoa := Except.ok.inj h
      simp [← hoa, presentB, hc]
    · rw [if_pos hx] at h
      obtain ⟨idv, _, h⟩ := exceptBind_eq_ok.mp h
      obtain ⟨sg, _, h⟩ := exceptBind_eq_ok.mp h
      obtain ⟨imidCell, _, h⟩ := exceptBind_eq_ok.mp h
      obtain ⟨imid, _, h⟩ := exceptBind_eq_ok.mp h
      obtain ⟨cidCell, _, h⟩ := exceptBind_eq_ok.mp h
      obtain ⟨cid, _, h⟩ := exceptBind_eq_ok.mp h
      obtain ⟨ar, _, h⟩ := exceptBind_eq_ok.mp h
      obtain ⟨bb, _, h⟩ := exceptBind_eq_ok.mp h
      obtain ⟨ic, _, h⟩ := exceptBind_eq_ok.mp h
      have hoa := Except.ok.inj h
      simp [← hoa, presentB, hc, bne_iff_ne, hx]

theorem imgOutOfRow_name_eq {df : Frame} {i : Nat} {rec : ImgOut}
    (h : imgOutOfRow df i = .ok (some rec)) : rec.image_name = rec.file_name := by
  unfold imgOutOfRow at h
  cases hc : exportCell df "img_id" i with
  | error s =>
    rw [hc, error_bind] at h
    exact Except.noConfusion h
  | ok x =>
    rw [hc, ok_bind] at h
    by_cases hx : x = Cell.nan
    · subst hx
      rw [if_neg (fun hcon : Cell.nan ≠ Cell.nan => hcon rfl)] at h
      exact Option.noConfusion (Except.ok.inj h)
    · rw [if_pos hx] at h
      obtain ⟨idv, _, h⟩ := exceptBind_eq_ok.mp h
      obtain ⟨w, _, h⟩ := exceptBind_eq_ok.mp h
      obtain ⟨ht, _, h⟩ := exceptBind_eq_ok.mp h
      obtain ⟨fn, _, h⟩ := exceptBind_eq_ok.mp h
      have h2 := Option.some.inj (Except.ok.inj h)
      rw [← h2]

theorem processRow_eq_ok {df : Frame} {i : Nat}
    {t : Option ImgOut × Option CatOut × Option AnnOut}
    (h : processRow df i = .ok t) :
    imgOutOfRow df i = .ok t.1 ∧ catOutOfRow df i = .ok t.2.1 ∧
      annOutOfRow df i = .ok t.2.2 := by
  unfold processRow at h
  obtain ⟨oi, h1, h⟩ := exceptBind_eq_ok.mp h
  obtain ⟨oc, h2, h⟩ := exceptBind_eq_ok.mp h
  obtain ⟨oa, h3, h⟩ := exceptBind_eq_ok.mp h
  have h4 := Except.ok.inj h
  subst h4
  exact ⟨h1, h2, h3⟩

theorem exportRowsAux_cons (df : Frame) (j : Nat) (rest : List Nat) :
    exportRowsAux df (j :: rest) =
      (processRow df j >>= fun t =>
        exportRowsAux df rest >>= fun r =>
          pure (t.1.toList ++ r.1, t.2.1.toList ++ r.2.1, t.2.2.toList ++ r.2.2)) := rfl

theorem toList_length_eq {α : Type} (o : Option α) (b : Bool) (h : o.isSome = b) :
    o.toList.length = if b then 1 else 0 := by
  cases o <;> simp_all

theorem exportRowsAux_lens {df : Frame} :
    ∀ {idxs : List Nat} {res : List ImgOut × List CatOut × List AnnOut},
      exportRowsAux df idxs = .ok res →
      res.1.length = idxs.countP (fun j => presentB df "img_id" j) ∧
      res.2.1.length = idxs.countP (fun j => presentB df "cat_id" j) ∧
      res.2.2.length = idxs.countP (fun j => presentB df "ann_id" j) := by
  intro idxs
  induction idxs with
  | nil =>
    intro res h
    have h2 := Except.ok.inj h
    subst h2
    simp
  | cons j rest ih =>
    intro res h
    rw [exportRowsAux_cons] at h
    obtain ⟨t, hpt, h⟩ := exceptBind_eq_ok.mp h
    obtain ⟨r, hr, h⟩ := exceptBind_eq_ok.mp h
    have h2 := Except.ok.inj h
    subst h2
    obtain ⟨hI, hC, hA⟩ := ih hr
    obtain ⟨g1, g2, g3⟩ := processRow_eq_ok hpt
    refine ⟨?_, ?_, ?_⟩
    · rw [List.length_append, toList_length_eq _ _ (imgOutOfRow_isSome g1), hI,
        List.countP_cons]
      cases presentB df "img_id" j <;> simp [Nat.add_comm]
    · rw [List.length_append, toList_length_eq _ _ (catOutOfRow_isSome g2), hC,
        List.countP_cons]
      cases presentB df "cat_id" j <;> simp [Nat.add_comm]
    · rw [List.length_append, toList_length_eq _ _ (annOutOfRow_isSome g3), hA,
        List.countP_cons]
      cases presentB df "ann_id" j <;> simp [Nat.add_comm]

theorem exportRowsAux_isErr {df : Frame} :
    ∀ {idxs : List Nat}, (∃ i ∈ idxs, isErrE (processRow df i) = true) →
      isErrE (exportRowsAux df idxs) = true := by
  intro idxs
  induction idxs with
  | nil =>
    rintro ⟨i, hi, _⟩
    simp at hi
  | cons j rest ih =>
    rintro ⟨i, hi, herr⟩
    rw [exportRowsAux_cons]
    rcases List.mem_cons.mp hi with rfl | hmem
    · exact isErrE_bind _ herr
    · cases hp : processRow df j with
      | error s =>
        rw [error_bind]
        rfl
      | ok t =>
        rw [ok_bind]
        exact isErrE_bind _ (ih ⟨i, hmem, herr⟩)

theorem exportRowsAux_images_eq {df : Frame} :
    ∀ {idxs : List Nat} {res : List ImgOut × List CatOut × List AnnOut},
      exportRowsAux df idxs = .ok res →
      ∀ rec ∈ res.1, rec.image_name = rec.file_name := by
  intro idxs
  induction idxs with
  | nil =>
    intro res h rec hrec
    have h2 := Except.ok.inj h
    subst h2
    simp at hrec
  | cons j rest ih =>
    intro res h rec hrec
    rw [exportRowsAux_cons] at h
    obtain ⟨t, hpt, h⟩ := exceptBind_eq_ok.mp h
    obtain ⟨r, hr, h⟩ := exceptBind_eq_ok.mp h
    have h2 := Except.ok.inj h
    subst h2
    obtain ⟨g1, _, _⟩ := processRow_eq_ok hpt
    simp only [List.mem_append] at hrec
    rcases hrec with hrec | hrec
    · cases ht : t.1 with
      | none =>
        rw [ht] at hrec
        simp at hrec
      | some rec2 =>
        rw [ht] at hrec
        simp only [Option.toList_some, List.mem_singleton] at hrec
        subst hrec
        rw [ht] at g1
        exact imgOutOfRow_name_eq g1
    · exact ih hr rec hrec

/-- Success shape of `dataframe_to_bina_coco`. -/
theorem export_eq_ok {df : Frame} {path : String} {doc : CocoDoc} {ps : List String}
    (h : dataframe_to_bina_coco df path = .ok (doc, ps)) :
    ∃ outI outC outA,
      exportRowsAux df (List.range df.nrows) = .ok (outI, outC, outA) ∧
      doc = { images := outI, categories := outC, anns := outA,
              licenses := [], errors := [], labels := [], classifications := [] } ∧
      ps = [path] := by
  unfold dataframe_to_bina_coco at h
  split at h
  · split at h
    next s hr => exact Except.noConfusion h
    next outI outC outA hr =>
      split at h
      · exact Except.noConfusion h
      · split at h
        · exact Except.noConfusion h
        · split at h
          · exact Except.noConfusion h
          · have h2 := Except.ok.inj h
            obtain ⟨hdoc, hps⟩ := Prod.mk.injEq _ _ _ _ |>.mp h2
            exact ⟨outI, outC, outA, hr, hdoc.symm, hps.symm⟩
  · exact Except.noConfusion h

/-! ## Claim C7: export grouping -/

/-- C7 (confirmed).  The exporter scans each row index independently and
accumulates the three records sequences without deduplication or
cross-referencing: on every successful export the emitted `images`,
`categories` and `annotations` counts equal the numbers of rows whose
`img_id`, `cat_id` and `ann_id` are present, respectively. -/
theorem export_grouping (df : Frame) (path : String)
    (h : isOkE (dataframe_to_bina_coco df path) = true) :
    docLensE (dataframe_to_bina_coco df path) =
      some (presentCount df "img_id", presentCount df "cat_id",
        presentCount df "ann_id") := by
  obtain ⟨val, hval⟩ := isOkE_iff.mp h
  obtain ⟨doc, ps⟩ := val
  obtain ⟨outI, outC, outA, hrows, hdoc, hps⟩ := export_eq_ok hval
  obtain ⟨hI, hC, hA⟩ := exportRowsAux_lens hrows
  rw [hval]
  subst hdoc
  simp only [docLensE, docOfE, Option.map_some']
  rw [presentCount, presentCount, presentCount]
  refine congrArg some ?_
  rw [hI, hC, hA]

/-- Witness for C7 at the table with one image row, one category row and two
annotation rows: the exported document has 1 image, 1 category and 2
annotations. -/
theorem export_grouping_witness :
    docLensE (dataframe_to_bina_coco exportExampleFrame "o") =
      some (presentCount exportExampleFrame "img_id",
        presentCount exportExampleFrame "cat_id",
        presentCount exportExampleFrame "ann_id") ∧
    (presentCount exportExampleFrame "img_id",
      presentCount exportExampleFrame "cat_id",
      presentCount exportExampleFrame "ann_id") = (1, 1, 2) :=
  ⟨export_grouping exportExampleFrame "o" (by decide), by decide⟩

/-! ## Claim C8: export atomicity -/

/-- C8 counterexample.  The claim says a row whose bbox/area fields are not
numerically coercible aborts the export; but the exporter passes `ann_area`
and `ann_bbox` through verbatim (only the five id fields go through
`int()`), so a table whose annotation row has `ann_area = "abc"` and a
non-numeric `ann_bbox` still exports successfully. -/
theorem export_area_no_abort_counterexample :
    badAreaFrame.cell "ann_area" 0 = Cell.str "abc" ∧
    pyInt? (Cell.str "abc") = none ∧
    isOkE (dataframe_to_bina_coco badAreaFrame "out.json") = true := by
  refine ⟨by decide, by decide, by decide⟩

/-- C8 (amended).  If any row of the table fails the exporter's `int()`
coercions (the `img_id`, `cat_id`, `ann_id`, `ann_image_id`,
`ann_category_id` fields — NOT area or bbox, which are passed through
verbatim), the export aborts with an error and no output file is committed;
the write happens only after all rows are processed, and on success the
call returns the output path wrapped in a single-element list. -/
theorem export_atomicity_amended (df : Frame) (path : String) :
    ((∃ i, i < df.nrows ∧ isErrE (processRow df i) = true) →
        isErrE (dataframe_to_bina_coco df path) = true) ∧
    ((∃ i, i < df.nrows ∧ isErrE (processRow df i) = true) →
        exportWrites df path = []) ∧
    (isOkE (dataframe_to_bina_coco df path) = true →
        pathsOfE (dataframe_to_bina_coco df path) = some [path]) := by
  have main : (∃ i, i < df.nrows ∧ isErrE (processRow df i) = true) →
      isErrE (dataframe_to_bina_coco df path) = true := by
    rintro ⟨i, hlt, herr⟩
    unfold dataframe_to_bina_coco
    by_cases hn : "ann_iscrowd" ∈ df.names
    · rw [if_pos hn]
      obtain ⟨s, hs⟩ :=
        isErrE_iff.mp (exportRowsAux_isErr ⟨i, List.mem_range.mpr hlt, herr⟩)
      rw [hs]
      rfl
    · rw [if_neg hn]
      rfl
  refine ⟨main, ?_, ?_⟩
  · intro hex
    obtain ⟨s, hs⟩ := isErrE_iff.mp (main hex)
    unfold exportWrites
    rw [hs]
  · intro hok
    obtain ⟨val, hval⟩ := isOkE_iff.mp hok
    obtain ⟨doc, ps⟩ := val
    obtain ⟨outI, outC, outA, hrows, hdoc, hps⟩ := export_eq_ok hval
    rw [hval]
    subst hps
    rfl

/-- Witness for C8 (amended): the table whose `ann_category_id` is `"oops"`
aborts and commits nothing; the well-formed example table succeeds and
returns its output path in a one-element list. -/
theorem export_atomicity_witness :
    isErrE (dataframe_to_bina_coco badCatIdFrame "o") = true ∧
    exportWrites badCatIdFrame "o" = [] ∧
    pathsOfE (dataframe_to_bina_coco exportExampleFrame "o") = some ["o"] :=
  ⟨(export_atomicity_amended badCatIdFrame "o").1 ⟨0, by decide, by decide⟩,
   (export_atomicity_amended badCatIdFrame "o").2.1 ⟨0, by decide, by decide⟩,
   (export_atomicity_amended exportExampleFrame "o").2.2 (by decide)⟩

/-! ## Claim C10: image_name equals file_name in every exported image -/

theorem colFind_mapCol (l : List (String × List Cell)) (c : String) (g : Cell → Cell)
    (c' : String) :
    colFind (l.map (fun p => if p.1 = c then (p.1, p.2.map g) else p)) c' =
      if c' = c then (colFind l c').map (List.map g) else colFind l c' := by
  induction l with
  | nil => by_cases h : c' = c <;> simp [colFind, h]
  | cons p rest ih =>
    obtain ⟨n, csp⟩ := p
    rw [List.map_cons]
    by_cases h1 : n = c
    · have hhead : (if (n, csp).1 = c then ((n, csp).1, (n, csp).2.map g) else (n, csp)) =
          (n, csp.map g) := by simp [h1]
      rw [hhead]
      by_cases h3 : c' = c
      · have h2 : n = c' := h1.trans h3.symm
        simp [colFind_cons, h2, h3, ih]
      · have h2 : ¬n = c' := fun hh => h3 (hh.symm.trans h1)
        simp [colFind_cons, h2, h3, ih]
    · have hhead : (if (n, csp).1 = c then ((n, csp).1, (n, csp).2.map g) else (n, csp)) =
          (n, csp) := by simp [h1]
      rw [hhead]
      by_cases h2 : n = c'
      · have h3 : ¬c' = c := fun hh => h1 (h2.trans hh)
        simp [colFind_cons, h2, h3, ih]
      · simp [colFind_cons, h1, h2, ih]

theorem col?_mapCol_ne {c c' : String} (hne : c' ≠ c) (f : Frame) (g : Cell → Cell) :
    (f.mapCol c g).col? c' = f.col? c' := by
  unfold Frame.mapCol Frame.col?
  rw [colFind_mapCol, if_neg hne]

theorem cellE_mapCol_ne {c c' : String} (hne : c' ≠ c) (f : Frame) (g : Cell → Cell)
    (i : Nat) : (f.mapCol c g).cellE c' i = f.cellE c' i := by
  unfold Frame.cellE
  rw [col?_mapCol_ne hne]

theorem exportCell_mapCol_ne {c c' : String} (hne : c' ≠ c) (f : Frame) (g : Cell → Cell)
    (i : Nat) : exportCell (f.mapCol c g) c' i = exportCell f c' i := by
  unfold exportCell
  rw [cellE_mapCol_ne hne]

theorem nrows_mapCol (f : Frame) (c : String) (g : Cell → Cell) :
    (f.mapCol c g).nrows = f.nrows := by
  simp only [Frame.mapCol, Frame.nrows]
  induction f.cols with
  | nil => rfl
  | cons p rest ih =>
    simp only [List.map_cons, List.foldr_cons, ih]
    congr 1
    split <;> simp

theorem processRow_cells_congr {df df' : Frame}
    (h : ∀ c ∈ exporterUsedCols, ∀ i : Nat, exportCell df' c i = exportCell df c i) :
    ∀ i : Nat, processRow df' i = processRow df i := by
  intro i
  have h1 := h "img_id" (by decide)
  have h2 := h "img_width" (by decide)
  have h3 := h "img_height" (by decide)
  have h4 := h "img_file_name" (by decide)
  have h5 := h "cat_id" (by decide)
  have h6 := h "cat_name" (by decide)
  have h7 := h "cat_supercategory" (by decide)
  have h8 := h "ann_id" (by decide)
  have h9 := h "ann_segmentation" (by decide)
  have h10 := h "ann_image_id" (by decide)
  have h11 := h "ann_category_id" (by decide)
  have h12 := h "ann_area" (by decide)
  have h13 := h "ann_bbox" (by decide)
  have h14 := h "ann_iscrowd" (by decide)
  unfold processRow imgOutOfRow catOutOfRow annOutOfRow
  simp only [h1, h2, h3, h4, h5, h6, h7, h8, h9, h10, h11, h12, h13, h14]

theorem exportRowsAux_congr {df df' : Frame}
    (h : ∀ i : Nat, processRow df' i = processRow df i) :
    ∀ idxs : List Nat, exportRowsAux df' idxs = exportRowsAux df idxs := by
  intro idxs
  induction idxs with
  | nil => rfl
  | cons j rest ih =>
    rw [exportRowsAux_cons, exportRowsAux_cons, h j, ih]

theorem export_mapCol_imgname (df : Frame) (g : Cell → Cell) (path : String) :
    dataframe_to_bina_coco (df.mapCol "img_image_name" g) path =
      dataframe_to_bina_coco df path := by
  have hcells : ∀ c ∈ exporterUsedCols, ∀ i : Nat,
      exportCell (df.mapCol "img_image_name" g) c i = exportCell df c i := by
    intro c hc i
    exact exportCell_mapCol_ne
      ((by decide : ∀ x ∈ exporterUsedCols, x ≠ "img_image_name") c hc) df g i
  have hrows := exportRowsAux_congr (processRow_cells_congr hcells)
  unfold dataframe_to_bina_coco
  rw [names_mapCol, nrows_mapCol, hrows (List.range df.nrows)]

/-- C10 (confirmed).  In every document the exporter produces, each emitted
image record has `image_name = file_name` (both are copied from the
canonical `img_file_name` column), and the exporter never reads the
`img_image_name` column: replacing that column's cells by anything leaves
the export output unchanged. -/
theorem export_image_name_file_name (df : Frame) (path : String) :
    (isOkE (dataframe_to_bina_coco df path) = true →
      (docOfE (dataframe_to_bina_coco df path)).map
        (fun d => d.images.all (fun r => r.image_name == r.file_name)) = some true) ∧
    (∀ g : Cell → Cell,
      dataframe_to_bina_coco (df.mapCol "img_image_name" g) path =
        dataframe_to_bina_coco df path) := by
  constructor
  · intro hok
    obtain ⟨val, hval⟩ := isOkE_iff.mp hok
    obtain ⟨doc, ps⟩ := val
    obtain ⟨outI, outC, outA, hrows, hdoc, hps⟩ := export_eq_ok hval
    rw [hval]
    subst hdoc
    simp only [docOfE, Option.map_some']
    refine congrArg some ?_
    rw [List.all_eq_true]
    intro r hr
    exact beq_iff_eq.mpr (exportRowsAux_images_eq hrows r hr)
  · intro g
    exact export_mapCol_imgname df g path

/-- Witness for C10 at the example table (also replacing `img_image_name`
cells by a changed string). -/
theorem export_image_name_file_name_witness :
    (docOfE (dataframe_to_bina_coco exportExampleFrame "o")).map
        (fun d => d.images.all (fun r => r.image_name == r.file_name)) = some true ∧
    dataframe_to_bina_coco (exportExampleFrame.mapCol "img_image_name"
        (fun _ => Cell.str "CHANGED")) "o" =
      dataframe_to_bina_coco exportExampleFrame "o" :=
  ⟨(export_image_name_file_name exportExampleFrame "o").1 (by decide),
   (export_image_name_file_name exportExampleFrame "o").2 (fun _ => Cell.str "CHANGED")⟩

/-- Witness for C9 (amended) at the raw frames of the `vocExample` run. -/
theorem cat_id_representation_witness :
    ((prepare_dataframe vocImgF vocAnnF vocCatF).map
        (fun df => (df.cell "cat_id" 0).isIntOrNan)) = some true ∧
    ((prepare_dataframe vocImgF vocAnnF vocCatF).map
        (fun df => (df.cell "ann_category_id" 0).isStrOrNan)) = some true :=
  ⟨(cat_id_representation_amended vocImgF vocAnnF vocCatF (by decide)).1 0,
   (cat_id_representation_amended vocImgF vocAnnF vocCatF (by decide)).2 0⟩

end AnnConv
